import Mathlib

/-!
# ExWave test-case inputs (`include/input_parameters.h`)

A shallow embedding of the three templates of `input_parameters.h`:

* `grid_transform`              (lines 41-50),
* `input_geometry_description`  (lines 59-127),
* `input_exact_solution`        (lines 133-175),

followed by the properties established about them.

Conventions of the embedding.

* `double` is an arbitrary linearly ordered field `α`; the functions of
  `<cmath>` and `numbers::PI` are collected in a record `MathFns α`.  The
  definitions are therefore executable in any implementation of these
  operations.  The theorems about analytic behaviour instantiate `α` with `ℝ`
  and `MathFns` with the real functions (`realFns`).
* `int` is `Int`; the only `int` operation of the file that can overflow, the
  unary minus in `-membrane_modes`, wraps modulo `2^32` (`int_neg`).
* `unsigned int` indices and ids are `Nat`.
* `Point<dim>` is `Fin dim → α`; every coordinate access `p[i]`, `p(i)` is a
  checked lookup (`Point.read`, `Point.write`).  The body of
  `input_exact_solution` is written over the lookup itself, so that what it
  reads of the point can be stated.
* `Assert`, the index check and every other failure are values of `Except Exc`.
-/

namespace HDG_WE

/-! ## Scalars, errors, points -/

/-- The functions of `<cmath>` and the constant `numbers::PI` used by the header. -/
structure MathFns (α : Type) where
  sin : α → α
  cos : α → α
  sqrt : α → α
  exp : α → α
  pi : α

/-- The interpretation of `MathFns` in the real numbers. -/
noncomputable def realFns : MathFns ℝ where
  sin := Real.sin
  cos := Real.cos
  sqrt := Real.sqrt
  exp := Real.exp
  pi := Real.pi

/-- The exceptions the header can raise: `ExcNotImplemented` of the `default:`
branches, and the index check of a coordinate access (index, dimension). -/
inductive Exc where
  | ExcNotImplemented
  | ExcIndexRange (index : Nat) (range : Nat)
  deriving DecidableEq, Repr

/-- Modelled from the spec: the macro `Assert(cond, exc)` of the mesh library,
which is not part of the header.  Section 4.1 of the specification describes the
`default:` branch as an assertion failure that is fatal; the check is taken to
be enabled. -/
def Assert (cond : Bool) (exc : Exc) : Except Exc Unit :=
  if cond then pure () else throw exc

/-- Reduction of an integer to the range of a 32-bit `int`. -/
def wrap_int (x : Int) : Int := (x + 2 ^ 31) % 2 ^ 32 - 2 ^ 31

/-- Unary minus of C++ on `int`.  The result is an `int`; for the least `int` the
negative is not representable (the overflow is undefined in the language) and
the two's-complement result, the least `int` again, is taken. -/
def int_neg (x : Int) : Int := wrap_int (-x)

/-- `Point<dim>`: `dim` coordinates. -/
abbrev Point (dim : Nat) (α : Type) := Fin dim → α

/-- Checked read `p[i]` / `p(i)`. -/
def Point.read {dim : Nat} {α : Type} (p : Point dim α) (i : Nat) : Except Exc α :=
  if h : i < dim then pure (p ⟨i, h⟩) else throw (Exc.ExcIndexRange i dim)

/-- Checked write `p[i] = v`. -/
def Point.write {dim : Nat} {α : Type} (p : Point dim α) (i : Nat) (v : α) :
    Except Exc (Point dim α) :=
  if h : i < dim then pure (Function.update p ⟨i, h⟩ v) else throw (Exc.ExcIndexRange i dim)

/-- `Point<dim>()`: the origin. -/
def Point.origin (dim : Nat) (α : Type) [Zero α] : Point dim α := fun _ => 0

/-- `Tensor<1,dim>::norm()`: the Euclidean norm. -/
def Point.norm {dim : Nat} {α : Type} [LinearOrderedField α] (F : MathFns α)
    (p : Point dim α) : α :=
  F.sqrt (∑ i : Fin dim, p i * p i)

/-! ## `input_exact_solution` -/

section exact_solution

variable {α : Type} [LinearOrderedField α]

/-- Lines 156-160: the body of the loop over the axes in case 1.  The point is
given by its checked coordinate lookup `p`. -/
def case1_axis_factor (F : MathFns α) (p : Nat → Except Exc α) (component : Nat)
    (membrane_modes : Int) (return_value : α) (d : Nat) : Except Exc α := do
  if d ≠ component then
    pure (return_value * F.sin ((membrane_modes : α) * F.pi * (← p d)))
  else
    pure (return_value * F.cos ((membrane_modes : α) * F.pi * (← p d)))

/-- Lines 142-155: the factor in time of case 1. -/
def case1_time_factor (F : MathFns α) (dim : Nat) (t : α) (component : Nat)
    (time_derivative : Bool) (membrane_modes : Int) : α :=
  if time_derivative then
    if component = dim then
      ((int_neg membrane_modes : Int) : α) * F.sqrt (dim : α) * F.pi
        * F.sin ((membrane_modes : α) * F.sqrt (dim : α) * F.pi * t)
    else
      ((int_neg membrane_modes : Int) : α) * F.pi
        * F.cos ((membrane_modes : α) * F.sqrt (dim : α) * F.pi * t)
  else
    if component = dim then
      F.cos ((membrane_modes : α) * F.sqrt (dim : α) * F.pi * t)
    else
      -F.sin ((membrane_modes : α) * F.sqrt (dim : α) * F.pi * t) / F.sqrt (dim : α)

/-- Lines 137-174: the body of `input_exact_solution<dim>`.  The point is given by
its checked coordinate lookup `p`, so that `p d` stands for `p(d)` and `p[d]`;
a lookup that fails ends the evaluation. -/
def input_exact_solution_body (F : MathFns α) (dim : Nat) (p : Nat → Except Exc α) (t : α)
    (component : Nat) (time_derivative : Bool) (initial_cases : Int)
    (membrane_modes : Int) : Except Exc α := do
  let return_value : α := 0.0
  if initial_cases = 1 then
    let return_value : α :=
      case1_time_factor F dim t component time_derivative membrane_modes
    (List.range dim).foldlM (case1_axis_factor F p component membrane_modes) return_value
  else if initial_cases = 2 then
    let fact : α := 500.0
    if component = dim then
      pure (F.sqrt (fact * fact * fact / (8 * F.pi * F.pi * F.pi)) *
        F.exp (-fact * (((← p 0) - 0.6) * ((← p 0) - 0.6)
                        + ((← p 1) - 0.6) * ((← p 1) - 0.6)
                        + ((← p 2) - 0.6) * ((← p 2) - 0.6))))
    else
      pure return_value
  else
    Assert false Exc.ExcNotImplemented
    pure return_value

/-- Lines 133-175: `input_exact_solution<dim>` at a point `p` of dimension `dim`,
whose coordinates are read with the index check. -/
def input_exact_solution (F : MathFns α) {dim : Nat} (p : Point dim α) (t : α)
    (component : Nat) (time_derivative : Bool) (initial_cases : Int)
    (membrane_modes : Int) : Except Exc α :=
  input_exact_solution_body F dim p.read t component time_derivative initial_cases
    membrane_modes

/-- The factor that lines 157-160 contribute for the axis `d`, read without the
index check.  Used to state the result of the loop. -/
def axis_factor (F : MathFns α) {dim : Nat} (p : Point dim α) (component : Nat)
    (membrane_modes : Int) (d : Fin dim) : α :=
  if (d : Nat) ≠ component then F.sin ((membrane_modes : α) * F.pi * p d)
  else F.cos ((membrane_modes : α) * F.pi * p d)

/-- The centre `(0.6, 0.6, 0.6)` of the pulse of case 2 (line 168). -/
def pulse_center (α : Type) [LinearOrderedField α] : Point 3 α := fun _ => 0.6

/-- The Euclidean distance of two points. -/
def Point.distance {dim : Nat} (F : MathFns α) (p q : Point dim α) : α :=
  Point.norm F (fun i => p i - q i)

end exact_solution

/-! ## `grid_transform` -/

section geometry

variable {α : Type} [LinearOrderedField α]

/-- The process-wide variable `grid_transform_factor` (line 29). -/
structure Globals (α : Type) where
  grid_transform_factor : α

/-- Modelled from the spec: `set_grid_transform_factor` is declared on line 35 and
defined outside the header; section 6 of the specification describes it as the
setter of the shared warp factor. -/
def set_grid_transform_factor (g : Globals α) (x : α) : Globals α :=
  { g with grid_transform_factor := x }

/-- Modelled from the spec: `get_grid_transform_factor` is declared on line 38 and
defined outside the header; section 6 of the specification describes it as the
getter of the shared warp factor. -/
def get_grid_transform_factor (g : Globals α) : α :=
  g.grid_transform_factor

/-- Lines 41-50.  The argument `in` of the source is called `input`. -/
def grid_transform (F : MathFns α) (g : Globals α) {dim : Nat} (input : Point dim α) :
    Except Exc (Point dim α) := do
  let out : Point dim α := input
  let sin_val : α := get_grid_transform_factor g
  let sin_val ← (List.range dim).foldlM
    (fun (sin_val : α) (d : Nat) => do pure (sin_val * F.sin (F.pi * (← input.read d)))) sin_val
  let out ← out.write 0 ((← input.read 0) + sin_val)
  pure out

/-! ## The mesh -/

/-- The manifold descriptions the header attaches to manifold ids. -/
inductive Manifold where
  | FlatManifold
  | SphericalManifold
  | TransfiniteInterpolationManifold
  deriving DecidableEq, Repr

/-- `GeometryInfo<dim>::faces_per_cell`. -/
def faces_per_cell (dim : Nat) : Nat := 2 * dim

/-- `GeometryInfo<dim>::vertices_per_cell`. -/
def vertices_per_cell (dim : Nat) : Nat := 2 ^ dim

/-- `Triangulation<dim>` as the header sees it: tables of vertices, of faces
(a face between two cells is one object, reached from both) and of cells.  The
header only handles the mesh before `refine_global`, where every cell is active:
`begin()`/`end()` and `begin_active()`/`end()` both run over the cells
`0, ..., n_cells - 1`. -/
structure Triangulation (dim : Nat) (α : Type) where
  n_vertices : Nat
  vertex : Nat → Point dim α
  n_cells : Nat
  cell_vertex : Nat → Nat → Nat
  cell_face : Nat → Nat → Nat
  face_vertex : Nat → Nat → Nat
  at_boundary : Nat → Bool
  boundary_id : Nat → Nat
  material_id : Nat → Nat
  cell_manifold_id : Nat → Nat
  face_manifold_id : Nat → Nat
  manifold : Nat → Option Manifold

namespace Triangulation

variable {dim : Nat}

/-- `cell->face(f)->set_boundary_id(id)` for the face object `face`. -/
def set_boundary_id (T : Triangulation dim α) (face id : Nat) : Triangulation dim α :=
  { T with boundary_id := Function.update T.boundary_id face id }

/-- `cell->set_material_id(id)`. -/
def set_material_id (T : Triangulation dim α) (cell id : Nat) : Triangulation dim α :=
  { T with material_id := Function.update T.material_id cell id }

/-- `cell->face(f)->set_all_manifold_ids(id)` for the face object `face`. -/
def set_face_manifold_ids (T : Triangulation dim α) (face id : Nat) : Triangulation dim α :=
  { T with face_manifold_id := Function.update T.face_manifold_id face id }

/-- `tria.set_all_manifold_ids(id)`. -/
def set_all_manifold_ids (T : Triangulation dim α) (id : Nat) : Triangulation dim α :=
  { T with cell_manifold_id := fun _ => id, face_manifold_id := fun _ => id }

/-- `tria.set_manifold(id, m)`. -/
def set_manifold (T : Triangulation dim α) (id : Nat) (m : Manifold) : Triangulation dim α :=
  { T with manifold := Function.update T.manifold id (some m) }

/-- `cell->center()`: the mean of the vertices of the cell. -/
def center (T : Triangulation dim α) (cell : Nat) : Point dim α :=
  fun i => (∑ v in Finset.range (vertices_per_cell dim), T.vertex (T.cell_vertex cell v) i)
    / (vertices_per_cell dim : α)

end Triangulation

/-- `GridTools::transform`: the function is applied to every vertex. -/
def transform {dim : Nat} (f : Point dim α → Except Exc (Point dim α))
    (tria : Triangulation dim α) : Except Exc (Triangulation dim α) :=
  (List.range tria.n_vertices).foldlM
    (fun (tria : Triangulation dim α) (v : Nat) => do
      pure { tria with vertex := Function.update tria.vertex v (← f (tria.vertex v)) }) tria

/-- The generators and the refinement of the mesh library, which the header calls
and does not define. -/
structure GridLibrary (dim : Nat) (α : Type) where
  subdivided_hyper_cube : Nat → α → α → Triangulation dim α
  hyper_shell : Point dim α → α → α → Nat → Triangulation dim α
  hyper_ball : Point dim α → α → Triangulation dim α
  merge_triangulations : Triangulation dim α → Triangulation dim α → Triangulation dim α
  refine_global : Nat → Triangulation dim α → Triangulation dim α

/-- The fields of `Parameters` (`parameters.h`) read by the header. -/
structure Parameters (α : Type) where
  initial_cases : Int
  n_initial_intervals : Nat
  n_refinements : Nat
  grid_transform_factor : α
  boundary_id : Nat

/-- The boundary classes of lines 56-58. -/
inductive BoundaryClass where
  | SoftWall
  | HardWall
  | Absorbing
  deriving DecidableEq, Repr

/-- Lines 56-58: the meaning of the boundary ids. -/
def boundary_class : Nat → Option BoundaryClass
  | 1 => some BoundaryClass.SoftWall
  | 2 => some BoundaryClass.HardWall
  | 3 => some BoundaryClass.Absorbing
  | _ => none

/-! ## `input_geometry_description` -/

/-- Lines 71-75 and 114-118: every face at the boundary receives the id `id`. -/
def set_boundary_ids {dim : Nat} (tria : Triangulation dim α) (id : Nat) :
    Triangulation dim α :=
  (List.range tria.n_cells).foldl
    (fun (tria : Triangulation dim α) (cell : Nat) =>
      (List.range (faces_per_cell dim)).foldl
        (fun (tria : Triangulation dim α) (f : Nat) =>
          if tria.at_boundary (tria.cell_face cell f) then
            tria.set_boundary_id (tria.cell_face cell f) id
          else tria) tria) tria

/-- Lines 96-99: whether all vertices of a face lie on the sphere of radius 0.4. -/
def face_at_sphere_boundary (F : MathFns α) {dim : Nat} (tria : Triangulation dim α)
    (face : Nat) : Bool :=
  (List.range (vertices_per_cell (dim - 1))).foldl
    (fun (face_at_sphere_boundary : Bool) (v : Nat) =>
      if |(tria.vertex (tria.face_vertex face v)).norm F - 0.4| > 1e-12 then false
      else face_at_sphere_boundary) true

/-- Lines 93-107: the body of the loop over the cells in case 2. -/
def case2_cell (F : MathFns α) {dim : Nat} (tria : Triangulation dim α) (cell : Nat) :
    Triangulation dim α :=
  let tria := (List.range (faces_per_cell dim)).foldl
    (fun (tria : Triangulation dim α) (f : Nat) =>
      if face_at_sphere_boundary F tria (tria.cell_face cell f) then
        tria.set_face_manifold_ids (tria.cell_face cell f) 1
      else tria) tria
  if (tria.center cell).norm F > 0.4 then
    tria.set_material_id cell 1
  else
    tria.set_material_id cell 0

/-- Lines 64-83: case 1, up to `break`. -/
def case1_mesh (F : MathFns α) {dim : Nat} (lib : GridLibrary dim α)
    (g : Globals α) (parameters : Parameters α) :
    Except Exc (Triangulation dim α × Globals α) := do
  let tria := lib.subdivided_hyper_cube parameters.n_initial_intervals 0 1
  let g := set_grid_transform_factor g parameters.grid_transform_factor
  let tria ← transform (grid_transform F g) tria
  let tria := set_boundary_ids tria parameters.boundary_id
  let tria := (List.range tria.n_cells).foldl
    (fun (tria : Triangulation dim α) (cell : Nat) => tria.set_material_id cell 0) tria
  pure (tria, g)

/-- Lines 86-89: the shell and the ball, merged. -/
def case2_merged (F : MathFns α) {dim : Nat} (lib : GridLibrary dim α) : Triangulation dim α :=
  let tria1 := lib.hyper_shell (Point.origin dim α) 0.4 (F.sqrt 3) 6
  let tria2 := lib.hyper_ball (Point.origin dim α) 0.4
  lib.merge_triangulations tria1 tria2

/-- Lines 84-121: case 2, up to `break`. -/
def case2_mesh (F : MathFns α) {dim : Nat} (lib : GridLibrary dim α) : Triangulation dim α :=
  let tria := case2_merged F lib
  let tria := tria.set_all_manifold_ids 0
  let tria := (List.range tria.n_cells).foldl (case2_cell F) tria
  let tria := tria.set_manifold 1 Manifold.SphericalManifold
  let tria := tria.set_manifold 0 Manifold.TransfiniteInterpolationManifold
  set_boundary_ids tria 1

/-- Lines 125-126: the statements after the `switch`. -/
def finish_mesh {dim : Nat} (lib : GridLibrary dim α) (parameters : Parameters α)
    (tria : Triangulation dim α) : Triangulation dim α :=
  (lib.refine_global parameters.n_refinements tria).set_manifold 0 Manifold.FlatManifold

/-- Lines 59-127.  The mesh `tria` and the global variable are passed in and
returned. -/
def input_geometry_description (F : MathFns α) {dim : Nat} (lib : GridLibrary dim α)
    (g : Globals α) (tria : Triangulation dim α) (parameters : Parameters α) :
    Except Exc (Triangulation dim α × Globals α) := do
  let (tria, g) ←
    if parameters.initial_cases = 1 then
      case1_mesh F lib g parameters
    else if parameters.initial_cases = 2 then
      pure (case2_mesh F lib, g)
    else do
      Assert false Exc.ExcNotImplemented
      pure (tria, g)
  pure (finish_mesh lib parameters tria, g)

/-- Two meshes with the same vertices, cells and faces: they differ at most in
the ids and manifolds attached to them. -/
structure SameMesh {dim : Nat} (T R : Triangulation dim α) : Prop where
  n_vertices : R.n_vertices = T.n_vertices
  vertex : R.vertex = T.vertex
  n_cells : R.n_cells = T.n_cells
  cell_vertex : R.cell_vertex = T.cell_vertex
  cell_face : R.cell_face = T.cell_face
  face_vertex : R.face_vertex = T.face_vertex
  at_boundary : R.at_boundary = T.at_boundary

/-- What a loop that sets boundary ids leaves untouched: the mesh and the
material ids. -/
def BoundaryFrame {dim : Nat} (T R : Triangulation dim α) : Prop :=
  SameMesh T R ∧ R.material_id = T.material_id

/-- What the loop over the faces of lines 94-102 leaves untouched: the mesh, the
material ids and the boundary ids. -/
def ManifoldFrame {dim : Nat} (T R : Triangulation dim α) : Prop :=
  SameMesh T R ∧ R.material_id = T.material_id ∧ R.boundary_id = T.boundary_id

/-- The unit cube as a mesh of one hexahedral cell: vertex `v` has the bits of `v`
as coordinates, face `f` is the side `f % 2` of the axis `f / 2`, and all six
faces are at the boundary. -/
def one_cell_mesh (α : Type) [LinearOrderedField α] : Triangulation 3 α where
  n_vertices := 8
  vertex := fun v i => if (v / 2 ^ (i : Nat)) % 2 = 1 then 1 else 0
  n_cells := 1
  cell_vertex := fun _ v => v
  cell_face := fun _ f => f
  face_vertex := fun f v =>
    (v / 2 ^ (f / 2)) * 2 ^ (f / 2 + 1) + (f % 2) * 2 ^ (f / 2) + v % 2 ^ (f / 2)
  at_boundary := fun _ => true
  boundary_id := fun _ => 0
  material_id := fun _ => 0
  cell_manifold_id := fun _ => 0
  face_manifold_id := fun _ => 0
  manifold := fun _ => none

/-- A mesh library whose generators all produce `one_cell_mesh` and whose
refinement leaves the mesh as it is. -/
def one_cell_library (α : Type) [LinearOrderedField α] : GridLibrary 3 α where
  subdivided_hyper_cube := fun _ _ _ => one_cell_mesh α
  hyper_shell := fun _ _ _ _ => one_cell_mesh α
  hyper_ball := fun _ _ => one_cell_mesh α
  merge_triangulations := fun _ _ => one_cell_mesh α
  refine_global := fun _ tria => tria

end geometry

/-! ## Auxiliary facts -/

section lemmas

theorem read_of_lt {α : Type} {dim : Nat} (p : Point dim α) (i : Nat) (h : i < dim) :
    p.read i = Except.ok (p ⟨i, h⟩) := by
  simp [Point.read, h, pure, Except.pure]

theorem read_of_not_lt {α : Type} {dim : Nat} (p : Point dim α) (i : Nat) (h : ¬ i < dim) :
    p.read i = Except.error (Exc.ExcIndexRange i dim) := by
  simp [Point.read, h, throw, throwThe, MonadExceptOf.throw]

variable {α : Type} [LinearOrderedField α]

theorem case1_axis_factor_of_lt (F : MathFns α) {dim : Nat} (p : Point dim α) (c : Nat)
    (m : Int) (r : α) (d : Nat) (h : d < dim) :
    case1_axis_factor F p.read c m r d = Except.ok (r * axis_factor F p c m ⟨d, h⟩) := by
  unfold case1_axis_factor axis_factor
  rw [read_of_lt p d h]
  by_cases hc : d = c <;> simp [hc, bind, Except.bind, pure, Except.pure]

/-- A loop over the axes that multiplies the accumulator by one factor per axis
returns the accumulator times the product of the factors. -/
theorem foldlM_range_mul {dim : Nat} (body : α → Nat → Except Exc α) (g : Fin dim → α)
    (hbody : ∀ (r : α) (d : Nat) (h : d < dim), body r d = Except.ok (r * g ⟨d, h⟩)) (r : α) :
    (List.range dim).foldlM body r = Except.ok (r * ∏ i : Fin dim, g i) := by
  have key : ∀ k, k ≤ dim → (List.range k).foldlM body r
      = Except.ok (r * ∏ i in Finset.range k, if h : i < dim then g ⟨i, h⟩ else 1) := by
    intro k
    induction k with
    | zero => intro _; simp [pure, Except.pure]
    | succ k ih =>
      intro hk
      have hlt : k < dim := hk
      rw [List.range_succ, List.foldlM_append, ih (Nat.le_of_lt hlt)]
      simp [bind, Except.bind, hbody _ k hlt, Finset.prod_range_succ, hlt, pure, Except.pure,
        mul_assoc]
  rw [key dim le_rfl, Finset.prod_range]
  simp

theorem case1_loop (F : MathFns α) {dim : Nat} (p : Point dim α) (c : Nat) (m : Int) (r : α) :
    (List.range dim).foldlM (case1_axis_factor F p.read c m) r
      = Except.ok (r * ∏ i : Fin dim, axis_factor F p c m i) :=
  foldlM_range_mul _ _ (fun r d h => case1_axis_factor_of_lt F p c m r d h) r

theorem input_exact_solution_case1 (F : MathFns α) {dim : Nat} (p : Point dim α) (t : α)
    (c : Nat) (td : Bool) (m : Int) :
    input_exact_solution F p t c td 1 m
      = Except.ok (case1_time_factor F dim t c td m * ∏ i : Fin dim, axis_factor F p c m i) := by
  simp [input_exact_solution, input_exact_solution_body, case1_loop]

theorem int_neg_of_ne_min (m : Int) (h : -2 ^ 31 < m ∧ m < 2 ^ 31) : int_neg m = -m := by
  unfold int_neg wrap_int
  omega

theorem sqrt_dim_ne_zero (dim : Nat) (h : 1 ≤ dim) : Real.sqrt (dim : ℝ) ≠ 0 := by
  have : (0 : ℝ) < dim := by exact_mod_cast h
  exact (Real.sqrt_pos.mpr this).ne'

/-- The time factor of case 1 computed with the exact negative of the mode count:
the derivative in time of the factor of the value mode. -/
theorem hasDerivAt_case1_time_factor (dim : Nat) (hdim : 1 ≤ dim) (m : Int) (c : Nat) (t : ℝ) :
    HasDerivAt (fun s => case1_time_factor realFns dim s c false m)
      (if c = dim then
          -(m : ℝ) * Real.sqrt dim * Real.pi * Real.sin ((m : ℝ) * Real.sqrt dim * Real.pi * t)
        else
          -(m : ℝ) * Real.pi * Real.cos ((m : ℝ) * Real.sqrt dim * Real.pi * t)) t := by
  have hs := sqrt_dim_ne_zero dim hdim
  have hlin : HasDerivAt (fun s : ℝ => (m : ℝ) * Real.sqrt dim * Real.pi * s)
      ((m : ℝ) * Real.sqrt dim * Real.pi) t := by
    simpa using (hasDerivAt_id t).const_mul ((m : ℝ) * Real.sqrt dim * Real.pi)
  by_cases hc : c = dim
  · simp only [case1_time_factor, realFns, hc, if_true, Bool.false_eq_true, if_false]
    convert hlin.cos using 1
    ring
  · simp only [case1_time_factor, realFns, hc, if_false, Bool.false_eq_true]
    convert (hlin.sin.neg).div_const (Real.sqrt dim) using 1
    field_simp
    ring

theorem input_exact_solution_case2_scalar (F : MathFns α) {dim : Nat} (hdim : 3 ≤ dim)
    (p : Point dim α) (t : α) (td : Bool) (m : Int) :
    input_exact_solution F p t dim td 2 m
      = Except.ok (F.sqrt (500.0 * 500.0 * 500.0 / (8 * F.pi * F.pi * F.pi)) *
          F.exp (-500.0 * ((p ⟨0, by omega⟩ - 0.6) * (p ⟨0, by omega⟩ - 0.6)
                        + (p ⟨1, by omega⟩ - 0.6) * (p ⟨1, by omega⟩ - 0.6)
                        + (p ⟨2, by omega⟩ - 0.6) * (p ⟨2, by omega⟩ - 0.6)))) := by
  simp [input_exact_solution, input_exact_solution_body, read_of_lt p 0 (by omega),
    read_of_lt p 1 (by omega), read_of_lt p 2 (by omega), bind, Except.bind, pure, Except.pure]

theorem input_exact_solution_case2_scalar_low (F : MathFns α) {dim : Nat} (hdim : dim < 3)
    (p : Point dim α) (t : α) (td : Bool) (m : Int) :
    input_exact_solution F p t dim td 2 m = Except.error (Exc.ExcIndexRange dim dim) := by
  have h3 : dim = 0 ∨ dim = 1 ∨ dim = 2 := by omega
  rcases h3 with h | h | h <;> subst h <;>
    simp [input_exact_solution, input_exact_solution_body, Point.read, bind, Except.bind, pure,
      Except.pure, throw, throwThe, MonadExceptOf.throw]

theorem input_exact_solution_body_case2_velocity (F : MathFns α) (dim : Nat)
    (p : Nat → Except Exc α) (t : α) (c : Nat) (hc : c ≠ dim) (td : Bool) (m : Int) :
    input_exact_solution_body F dim p t c td 2 m = Except.ok 0 := by
  simp only [input_exact_solution_body, hc, if_false, pure, Except.pure]
  norm_num

theorem input_exact_solution_case2_velocity (F : MathFns α) {dim : Nat}
    (p : Point dim α) (t : α) (c : Nat) (hc : c ≠ dim) (td : Bool) (m : Int) :
    input_exact_solution F p t c td 2 m = Except.ok 0 :=
  input_exact_solution_body_case2_velocity F dim p.read t c hc td m

theorem input_exact_solution_default (F : MathFns α) {dim : Nat}
    (p : Point dim α) (t : α) (c : Nat) (td : Bool) (ic : Int) (h1 : ic ≠ 1) (h2 : ic ≠ 2)
    (m : Int) :
    input_exact_solution F p t c td ic m = Except.error Exc.ExcNotImplemented := by
  simp [input_exact_solution, input_exact_solution_body, h1, h2, Assert, bind, Except.bind,
    throw, throwThe, MonadExceptOf.throw]

theorem grid_transform_of_pos (F : MathFns α) (g : Globals α) {dim : Nat} (hdim : 1 ≤ dim)
    (p : Point dim α) :
    grid_transform F g p = Except.ok (Function.update p ⟨0, hdim⟩
      (p ⟨0, hdim⟩ + get_grid_transform_factor g * ∏ d : Fin dim, F.sin (F.pi * p d))) := by
  have hloop := @foldlM_range_mul α _ dim
    (fun (sin_val : α) (d : Nat) => do pure (sin_val * F.sin (F.pi * (← p.read d))))
    (fun d => F.sin (F.pi * p d))
    (fun r d h => by simp [read_of_lt p d h, bind, Except.bind, pure, Except.pure])
    (get_grid_transform_factor g)
  have h0 : 0 < dim := hdim
  simp only [grid_transform, hloop]
  simp only [read_of_lt p 0 h0, Point.write, h0, dif_pos, bind, Except.bind, pure, Except.pure]

/-- The product over the axes after coordinate `c` is replaced by `x`: the factor
of axis `c` at `x`, times the factors of the other axes. -/
theorem prod_axis_factor_update (F : MathFns α) {dim : Nat} (p : Point dim α) (comp : Nat)
    (m : Int) (c : Fin dim) (x : α) :
    ∏ i : Fin dim, axis_factor F (Function.update p c x) comp m i
      = (if (c : Nat) ≠ comp then F.sin ((m : α) * F.pi * x) else F.cos ((m : α) * F.pi * x))
        * ∏ i in Finset.univ.erase c, axis_factor F p comp m i := by
  rw [← Finset.mul_prod_erase Finset.univ _ (Finset.mem_univ c)]
  congr 1
  · simp [axis_factor]
  · apply Finset.prod_congr rfl
    intro i hi
    have hne : i ≠ c := Finset.ne_of_mem_erase hi
    simp [axis_factor, Function.update_noteq hne]

/-- Away from the axis `c`, the factors for the component `c` and for the pressure
component coincide: both are sines. -/
theorem prod_erase_axis_factor (F : MathFns α) {dim : Nat} (p : Point dim α) (m : Int)
    (c : Fin dim) :
    ∏ i in Finset.univ.erase c, axis_factor F p c m i
      = ∏ i in Finset.univ.erase c, axis_factor F p dim m i := by
  apply Finset.prod_congr rfl
  intro i hi
  have hne : (i : Nat) ≠ c := fun h => Finset.ne_of_mem_erase hi (Fin.ext h)
  simp [axis_factor, hne, i.isLt.ne]

theorem hasDerivAt_sin_mode (m : Int) (x : ℝ) :
    HasDerivAt (fun y : ℝ => Real.sin ((m : ℝ) * Real.pi * y))
      ((m : ℝ) * Real.pi * Real.cos ((m : ℝ) * Real.pi * x)) x := by
  have hlin : HasDerivAt (fun y : ℝ => (m : ℝ) * Real.pi * y) ((m : ℝ) * Real.pi) x := by
    simpa using (hasDerivAt_id x).const_mul ((m : ℝ) * Real.pi)
  convert hlin.sin using 1
  ring

theorem hasDerivAt_cos_mode (m : Int) (x : ℝ) :
    HasDerivAt (fun y : ℝ => Real.cos ((m : ℝ) * Real.pi * y))
      (-((m : ℝ) * Real.pi * Real.sin ((m : ℝ) * Real.pi * x))) x := by
  have hlin : HasDerivAt (fun y : ℝ => (m : ℝ) * Real.pi * y) ((m : ℝ) * Real.pi) x := by
    simpa using (hasDerivAt_id x).const_mul ((m : ℝ) * Real.pi)
  convert hlin.cos using 1
  ring

/-- The pressure value of case 1 as a function of the coordinate `c`, and its
partial derivative. -/
theorem hasDerivAt_case1_pressure (dim : Nat) (m : Int) (p : Point dim ℝ) (t : ℝ)
    (c : Fin dim) :
    HasDerivAt
      (fun x => case1_time_factor realFns dim t dim false m
        * ∏ i : Fin dim, axis_factor realFns (Function.update p c x) dim m i)
      (Real.cos ((m : ℝ) * Real.sqrt dim * Real.pi * t)
        * ((m : ℝ) * Real.pi * Real.cos ((m : ℝ) * Real.pi * p c)
          * ∏ i in Finset.univ.erase c, axis_factor realFns p dim m i)) (p c) := by
  have hfun : ∀ x, case1_time_factor realFns dim t dim false m
        * ∏ i : Fin dim, axis_factor realFns (Function.update p c x) dim m i
      = Real.cos ((m : ℝ) * Real.sqrt dim * Real.pi * t)
        * (Real.sin ((m : ℝ) * Real.pi * x)
          * ∏ i in Finset.univ.erase c, axis_factor realFns p dim m i) := by
    intro x
    rw [prod_axis_factor_update]
    simp [case1_time_factor, realFns, c.isLt.ne]
  simp only [hfun]
  exact ((hasDerivAt_sin_mode m (p c)).mul_const _).const_mul _

/-- The value of the velocity component `c` of case 1 as a function of the
coordinate `c`, and its partial derivative. -/
theorem hasDerivAt_case1_velocity (dim : Nat) (m : Int) (p : Point dim ℝ) (t : ℝ)
    (c : Fin dim) :
    HasDerivAt
      (fun x => case1_time_factor realFns dim t c false m
        * ∏ i : Fin dim, axis_factor realFns (Function.update p c x) c m i)
      (-Real.sin ((m : ℝ) * Real.sqrt dim * Real.pi * t) / Real.sqrt dim
        * (-((m : ℝ) * Real.pi * Real.sin ((m : ℝ) * Real.pi * p c))
          * ∏ i in Finset.univ.erase c, axis_factor realFns p dim m i)) (p c) := by
  have hfun : ∀ x, case1_time_factor realFns dim t c false m
        * ∏ i : Fin dim, axis_factor realFns (Function.update p c x) c m i
      = -Real.sin ((m : ℝ) * Real.sqrt dim * Real.pi * t) / Real.sqrt dim
        * (Real.cos ((m : ℝ) * Real.pi * x)
          * ∏ i in Finset.univ.erase c, axis_factor realFns p dim m i) := by
    intro x
    rw [prod_axis_factor_update, prod_erase_axis_factor]
    simp [case1_time_factor, realFns, c.isLt.ne]
  simp only [hfun]
  exact ((hasDerivAt_cos_mode m (p c)).mul_const _).const_mul _

/-- The product of the sines over all axes, split at the axis `c`. -/
theorem prod_pressure_split (dim : Nat) (m : Int) (p : Point dim ℝ) (c : Fin dim) :
    ∏ i : Fin dim, axis_factor realFns p dim m i
      = Real.sin ((m : ℝ) * Real.pi * p c)
        * ∏ i in Finset.univ.erase c, axis_factor realFns p dim m i := by
  rw [← Finset.mul_prod_erase Finset.univ _ (Finset.mem_univ c)]
  simp [axis_factor, realFns, c.isLt.ne]

/-- The product of the factors for the velocity component `c`, split at the axis `c`. -/
theorem prod_velocity_split (dim : Nat) (m : Int) (p : Point dim ℝ) (c : Fin dim) :
    ∏ i : Fin dim, axis_factor realFns p c m i
      = Real.cos ((m : ℝ) * Real.pi * p c)
        * ∏ i in Finset.univ.erase c, axis_factor realFns p dim m i := by
  rw [← Finset.mul_prod_erase Finset.univ _ (Finset.mem_univ c), prod_erase_axis_factor]
  simp [axis_factor, realFns]

end lemmas

/-! ## Auxiliary facts about the mesh loops -/

section mesh_lemmas

theorem SameMesh.refl {α : Type} {dim : Nat} (T : Triangulation dim α) : SameMesh T T :=
  ⟨rfl, rfl, rfl, rfl, rfl, rfl, rfl⟩

theorem SameMesh.trans {α : Type} {dim : Nat} {T R S : Triangulation dim α} (h1 : SameMesh T R) (h2 : SameMesh R S) :
    SameMesh T S :=
  ⟨h2.n_vertices.trans h1.n_vertices, h2.vertex.trans h1.vertex, h2.n_cells.trans h1.n_cells,
    h2.cell_vertex.trans h1.cell_vertex, h2.cell_face.trans h1.cell_face,
    h2.face_vertex.trans h1.face_vertex, h2.at_boundary.trans h1.at_boundary⟩

variable {α : Type} [LinearOrderedField α] {dim : Nat}

theorem SameMesh.center_eq {T R : Triangulation dim α} (h : SameMesh T R) (cell : Nat) :
    R.center cell = T.center cell := by
  unfold Triangulation.center
  rw [h.vertex, h.cell_vertex]

/-- A loop whose steps keep an invariant and write at most the value `id` into a
table: afterwards every entry is `id` or unchanged, and every entry that some
step had to write is `id`. -/
theorem foldl_mark {σ ι : Type} (Inv : σ → Prop) (table : σ → Nat → Nat) (id : Nat)
    (target : ι → Nat → Prop) (body : σ → ι → σ)
    (hInv : ∀ s i, Inv s → Inv (body s i))
    (hkeep : ∀ s i k, Inv s → table (body s i) k = id ∨ table (body s i) k = table s k)
    (hset : ∀ s i k, Inv s → target i k → table (body s i) k = id) :
    ∀ (l : List ι) (s : σ), Inv s →
      Inv (l.foldl body s) ∧
      (∀ k, table (l.foldl body s) k = id ∨ table (l.foldl body s) k = table s k) ∧
      (∀ i ∈ l, ∀ k, target i k → table (l.foldl body s) k = id) := by
  intro l
  induction l with
  | nil => intro s hs; exact ⟨hs, fun k => Or.inr rfl, fun i hi => by simp at hi⟩
  | cons a l ih =>
    intro s hs
    obtain ⟨h1, h2, h3⟩ := ih (body s a) (hInv s a hs)
    refine ⟨h1, ?_, ?_⟩
    · intro k
      rcases h2 k with h | h
      · exact Or.inl h
      · rcases hkeep s a k hs with h' | h'
        · exact Or.inl (h.trans h')
        · exact Or.inr (h.trans h')
    · intro i hi k hk
      rcases List.mem_cons.mp hi with rfl | hi
      · rcases h2 k with h | h
        · exact h
        · exact h.trans (hset s i k hs hk)
      · exact h3 i hi k hk

/-- A loop whose steps keep an invariant keeps it. -/
theorem foldl_keeps {σ ι : Type} (Inv : σ → Prop) (body : σ → ι → σ)
    (hInv : ∀ s i, Inv s → Inv (body s i)) (l : List ι) (s : σ) (hs : Inv s) :
    Inv (l.foldl body s) := by
  induction l generalizing s with
  | nil => exact hs
  | cons a l ih => exact ih (body s a) (hInv s a hs)

/-- Lines 71-75 and 114-118: the mesh is otherwise unchanged, a boundary id is `id`
or unchanged, and it is `id` on every face at the boundary of every cell. -/
theorem set_boundary_ids_spec {α : Type} {dim : Nat} (T : Triangulation dim α) (id : Nat) :
    SameMesh T (set_boundary_ids T id) ∧
    (set_boundary_ids T id).material_id = T.material_id ∧
    (∀ k, (set_boundary_ids T id).boundary_id k = id
      ∨ (set_boundary_ids T id).boundary_id k = T.boundary_id k) ∧
    (∀ cell, cell < T.n_cells → ∀ f, f < faces_per_cell dim →
      T.at_boundary (T.cell_face cell f) = true →
      (set_boundary_ids T id).boundary_id (T.cell_face cell f) = id) := by
  -- the loop over the faces of one cell
  have inner : ∀ (cell : Nat) (s : Triangulation dim α), BoundaryFrame T s →
      BoundaryFrame T ((List.range (faces_per_cell dim)).foldl
        (fun (tria : Triangulation dim α) (f : Nat) =>
          if tria.at_boundary (tria.cell_face cell f) then
            tria.set_boundary_id (tria.cell_face cell f) id
          else tria) s) ∧
      (∀ k, ((List.range (faces_per_cell dim)).foldl
        (fun (tria : Triangulation dim α) (f : Nat) =>
          if tria.at_boundary (tria.cell_face cell f) then
            tria.set_boundary_id (tria.cell_face cell f) id
          else tria) s).boundary_id k = id ∨
        ((List.range (faces_per_cell dim)).foldl
        (fun (tria : Triangulation dim α) (f : Nat) =>
          if tria.at_boundary (tria.cell_face cell f) then
            tria.set_boundary_id (tria.cell_face cell f) id
          else tria) s).boundary_id k = s.boundary_id k) ∧
      (∀ f ∈ List.range (faces_per_cell dim), ∀ k,
        (k = T.cell_face cell f ∧ T.at_boundary k = true) →
        ((List.range (faces_per_cell dim)).foldl
        (fun (tria : Triangulation dim α) (f : Nat) =>
          if tria.at_boundary (tria.cell_face cell f) then
            tria.set_boundary_id (tria.cell_face cell f) id
          else tria) s).boundary_id k = id) := by
    intro cell s hs
    apply foldl_mark (BoundaryFrame T) (fun s => s.boundary_id) id
      (fun f k => k = T.cell_face cell f ∧ T.at_boundary k = true)
    · intro s f hs
      split
      · exact ⟨⟨hs.1.n_vertices, hs.1.vertex, hs.1.n_cells, hs.1.cell_vertex, hs.1.cell_face,
          hs.1.face_vertex, hs.1.at_boundary⟩, hs.2⟩
      · exact hs
    · intro s f k hs
      split
      · by_cases hk : k = s.cell_face cell f
        · left; simp [Triangulation.set_boundary_id, hk]
        · right; simp [Triangulation.set_boundary_id, Function.update_noteq hk]
      · right; rfl
    · rintro s f k hs ⟨hk, hb⟩
      have hface : s.cell_face cell f = k := by rw [hs.1.cell_face, hk]
      have hat : s.at_boundary (s.cell_face cell f) = true := by
        rw [hface, hs.1.at_boundary, hb]
      rw [hface] at hat
      simp [hat, Triangulation.set_boundary_id, hface]
    · exact hs
  have outer := foldl_mark (BoundaryFrame T) (fun s => s.boundary_id) id
    (fun cell k => ∃ f, f < faces_per_cell dim ∧ k = T.cell_face cell f ∧ T.at_boundary k = true)
    (fun (tria : Triangulation dim α) (cell : Nat) =>
      (List.range (faces_per_cell dim)).foldl
        (fun (tria : Triangulation dim α) (f : Nat) =>
          if tria.at_boundary (tria.cell_face cell f) then
            tria.set_boundary_id (tria.cell_face cell f) id
          else tria) tria)
    (fun s cell hs => (inner cell s hs).1)
    (fun s cell k hs => (inner cell s hs).2.1 k)
    (fun s cell k hs ⟨f, hf, hk⟩ => (inner cell s hs).2.2 f (List.mem_range.mpr hf) k hk)
    (List.range T.n_cells) T ⟨SameMesh.refl T, rfl⟩
  refine ⟨outer.1.1, outer.1.2, outer.2.1, ?_⟩
  intro cell hcell f hf hb
  exact outer.2.2 cell (List.mem_range.mpr hcell) _ ⟨f, hf, rfl, hb⟩

/-- Lines 93-107 for one cell: the mesh and the boundary ids are unchanged, and the
material id of the cell is 1 if its centre is farther than 0.4 from the origin,
0 otherwise. -/
theorem case2_cell_spec (F : MathFns α) (T : Triangulation dim α) (cell : Nat) :
    SameMesh T (case2_cell F T cell) ∧
    (case2_cell F T cell).boundary_id = T.boundary_id ∧
    (case2_cell F T cell).material_id
      = Function.update T.material_id cell (if (T.center cell).norm F > 0.4 then 1 else 0) := by
  have inner := foldl_keeps (ManifoldFrame T)
    (fun (tria : Triangulation dim α) (f : Nat) =>
      if face_at_sphere_boundary F tria (tria.cell_face cell f) then
        tria.set_face_manifold_ids (tria.cell_face cell f) 1
      else tria)
    (fun s f hs => by
      dsimp only
      split
      · exact ⟨⟨hs.1.n_vertices, hs.1.vertex, hs.1.n_cells, hs.1.cell_vertex, hs.1.cell_face,
          hs.1.face_vertex, hs.1.at_boundary⟩, hs.2.1, hs.2.2⟩
      · exact hs)
    (List.range (faces_per_cell dim)) T ⟨SameMesh.refl T, rfl, rfl⟩
  obtain ⟨hsame, hmat, hbid⟩ := inner
  unfold case2_cell
  simp only [hsame.center_eq]
  split
  · exact ⟨⟨hsame.n_vertices, hsame.vertex, hsame.n_cells, hsame.cell_vertex, hsame.cell_face,
      hsame.face_vertex, hsame.at_boundary⟩, hbid, by
        simp only [Triangulation.set_material_id, hmat]⟩
  · exact ⟨⟨hsame.n_vertices, hsame.vertex, hsame.n_cells, hsame.cell_vertex, hsame.cell_face,
      hsame.face_vertex, hsame.at_boundary⟩, hbid, by
        simp only [Triangulation.set_material_id, hmat]⟩

/-- Lines 91-107: after the loop over the cells of a list, the mesh and the
boundary ids are unchanged, every cell of the list has the material id decided by
its centre, and the other material ids are unchanged. -/
theorem case2_cells_spec (F : MathFns α) (l : List Nat) (T : Triangulation dim α) :
    SameMesh T (l.foldl (case2_cell F) T) ∧
    (l.foldl (case2_cell F) T).boundary_id = T.boundary_id ∧
    (∀ cell ∈ l, (l.foldl (case2_cell F) T).material_id cell
      = if (T.center cell).norm F > 0.4 then 1 else 0) ∧
    (∀ cell, cell ∉ l → (l.foldl (case2_cell F) T).material_id cell = T.material_id cell) := by
  induction l generalizing T with
  | nil => exact ⟨SameMesh.refl T, rfl, fun c hc => by simp at hc, fun c _ => rfl⟩
  | cons a l ih =>
    obtain ⟨hs1, hb1, hm1⟩ := case2_cell_spec F T a
    obtain ⟨hs, hb, hin, hout⟩ := ih (case2_cell F T a)
    simp only [List.foldl_cons]
    refine ⟨hs1.trans hs, hb.trans hb1, ?_, ?_⟩
    · intro cell hcell
      by_cases hl : cell ∈ l
      · rw [hin cell hl, hs1.center_eq]
      · have hca : cell = a := by
          rcases List.mem_cons.mp hcell with h | h
          · exact h
          · exact absurd h hl
        rw [hout cell hl, hm1, hca]
        simp
    · intro cell hcell
      have hne : cell ≠ a := fun h => hcell (by simp [h])
      have hl : cell ∉ l := fun h => hcell (List.mem_cons_of_mem a h)
      rw [hout cell hl, hm1, Function.update_noteq hne]

/-- Lines 84-121: the mesh of case 2 is the merged mesh with ids and manifolds
attached; its boundary faces have the id 1 and its material ids are decided by
the centres of the cells. -/
theorem case2_mesh_spec (F : MathFns α) (lib : GridLibrary dim α) :
    SameMesh (case2_merged F lib) (case2_mesh F lib) ∧
    (∀ cell, cell < (case2_mesh F lib).n_cells → ∀ f, f < faces_per_cell dim →
      (case2_mesh F lib).at_boundary ((case2_mesh F lib).cell_face cell f) = true →
      (case2_mesh F lib).boundary_id ((case2_mesh F lib).cell_face cell f) = 1) ∧
    (∀ cell, cell < (case2_mesh F lib).n_cells →
      (case2_mesh F lib).material_id cell
        = if ((case2_mesh F lib).center cell).norm F > 0.4 then 1 else 0) := by
  obtain ⟨hs1, -, hin, -⟩ := case2_cells_spec F
    (List.range ((case2_merged F lib).set_all_manifold_ids 0).n_cells)
    ((case2_merged F lib).set_all_manifold_ids 0)
  obtain ⟨hs2, hm2, -, hb2⟩ := set_boundary_ids_spec
    ((((List.range ((case2_merged F lib).set_all_manifold_ids 0).n_cells).foldl (case2_cell F)
      ((case2_merged F lib).set_all_manifold_ids 0)).set_manifold 1
        Manifold.SphericalManifold).set_manifold 0 Manifold.TransfiniteInterpolationManifold) 1
  have hs0 : SameMesh (case2_merged F lib) ((case2_merged F lib).set_all_manifold_ids 0) :=
    ⟨rfl, rfl, rfl, rfl, rfl, rfl, rfl⟩
  have hsm : SameMesh ((List.range ((case2_merged F lib).set_all_manifold_ids 0).n_cells).foldl
      (case2_cell F) ((case2_merged F lib).set_all_manifold_ids 0))
      ((((List.range ((case2_merged F lib).set_all_manifold_ids 0).n_cells).foldl (case2_cell F)
      ((case2_merged F lib).set_all_manifold_ids 0)).set_manifold 1
        Manifold.SphericalManifold).set_manifold 0 Manifold.TransfiniteInterpolationManifold) :=
    ⟨rfl, rfl, rfl, rfl, rfl, rfl, rfl⟩
  have hall : SameMesh ((case2_merged F lib).set_all_manifold_ids 0) (case2_mesh F lib) :=
    (hs1.trans hsm).trans hs2
  refine ⟨hs0.trans hall, ?_, ?_⟩
  · intro cell hcell f hf hb
    have hpre := (hs1.trans hsm)
    have hcf : (case2_mesh F lib).cell_face = _ := hs2.cell_face
    have hab : (case2_mesh F lib).at_boundary = _ := hs2.at_boundary
    have hn : (case2_mesh F lib).n_cells = _ := hs2.n_cells
    rw [hcf]
    rw [hcf, hab] at hb
    rw [hn] at hcell
    exact hb2 cell hcell f hf hb
  · intro cell hcell
    have hn : (case2_mesh F lib).n_cells = _ := hall.n_cells
    rw [hn] at hcell
    rw [hall.center_eq]
    have hmat : (case2_mesh F lib).material_id = _ := hm2
    rw [hmat]
    exact hin cell (List.mem_range.mpr hcell)

theorem input_geometry_description_case2 (F : MathFns α) (lib : GridLibrary dim α)
    (g : Globals α) (tria : Triangulation dim α) (parameters : Parameters α)
    (h2 : parameters.initial_cases = 2) :
    input_geometry_description F lib g tria parameters
      = Except.ok (finish_mesh lib parameters (case2_mesh F lib), g) := by
  simp [input_geometry_description, h2, bind, Except.bind, pure, Except.pure]

theorem input_geometry_description_default (F : MathFns α) (lib : GridLibrary dim α)
    (g : Globals α) (tria : Triangulation dim α) (parameters : Parameters α)
    (h1 : parameters.initial_cases ≠ 1) (h2 : parameters.initial_cases ≠ 2) :
    input_geometry_description F lib g tria parameters
      = Except.error Exc.ExcNotImplemented := by
  simp [input_geometry_description, h1, h2, Assert, bind, Except.bind, throw, throwThe,
    MonadExceptOf.throw]

/-- A loop in `Except` fails only with an error of one of its steps. -/
theorem foldlM_error {σ ι : Type} (E : Exc → Prop) (body : σ → ι → Except Exc σ)
    (hbody : ∀ s i e, body s i = Except.error e → E e) (l : List ι) (s : σ) (e : Exc)
    (h : l.foldlM body s = Except.error e) : E e := by
  induction l generalizing s with
  | nil => simp [pure, Except.pure] at h
  | cons a l ih =>
    rw [List.foldlM_cons] at h
    cases hstep : body s a with
    | error e' =>
      rw [hstep] at h
      simp only [bind, Except.bind] at h
      cases h
      exact hbody s a e hstep
    | ok s' =>
      rw [hstep] at h
      exact ih s' h

/-- The coordinate transformation never raises `ExcNotImplemented`. -/
theorem grid_transform_error (F : MathFns α) (g : Globals α) (p : Point dim α) :
    grid_transform F g p ≠ Except.error Exc.ExcNotImplemented := by
  rcases Nat.eq_zero_or_pos dim with h | h
  · subst h
    simp [grid_transform, Point.read, bind, Except.bind, pure, Except.pure, throw, throwThe,
      MonadExceptOf.throw]
  · rw [grid_transform_of_pos F g h p]
    simp

/-- Lines 64-83 never raise `ExcNotImplemented`. -/
theorem case1_mesh_error (F : MathFns α) (lib : GridLibrary dim α) (g : Globals α)
    (parameters : Parameters α) :
    case1_mesh F lib g parameters ≠ Except.error Exc.ExcNotImplemented := by
  intro h
  unfold case1_mesh at h
  cases ht : transform (grid_transform F
      (set_grid_transform_factor g parameters.grid_transform_factor))
      (lib.subdivided_hyper_cube parameters.n_initial_intervals 0 1) with
  | error e =>
    have hne : e ≠ Exc.ExcNotImplemented := by
      refine foldlM_error (fun e => e ≠ Exc.ExcNotImplemented) _ ?_ _ _ e ht
      intro s v e' he'
      cases hq : grid_transform F
          (set_grid_transform_factor g parameters.grid_transform_factor) (s.vertex v) with
      | error e'' =>
        simp only [hq, bind, Except.bind] at he'
        cases he'
        intro hc
        exact grid_transform_error F _ _ (hc ▸ hq)
      | ok q =>
        simp [hq, bind, Except.bind, pure, Except.pure] at he'
    simp only [ht, bind, Except.bind] at h
    cases h
    exact hne rfl
  | ok T =>
    simp [ht, bind, Except.bind, pure, Except.pure] at h

theorem input_geometry_description_case1_error (F : MathFns α) (lib : GridLibrary dim α)
    (g : Globals α) (tria : Triangulation dim α) (parameters : Parameters α)
    (h1 : parameters.initial_cases = 1) :
    input_geometry_description F lib g tria parameters
      ≠ Except.error Exc.ExcNotImplemented := by
  intro h
  cases hc : case1_mesh F lib g parameters with
  | error e =>
    simp only [input_geometry_description, h1, if_true, hc, bind, Except.bind] at h
    cases h
    exact case1_mesh_error F lib g parameters hc
  | ok r =>
    simp [input_geometry_description, h1, hc, bind, Except.bind, pure, Except.pure] at h

end mesh_lemmas

/-! ## Case 1: the time derivative -/

/-- C1 (as amended).  In case 1, for every dimension `dim ≥ 1`, every mode count
`m` of type `int` other than the least one (`-2^31 < m < 2^31`), every point,
every component and every time `t`: the value mode is a differentiable function
of the time and its derivative at `t` is what the time-derivative mode returns. -/
theorem case1_time_derivative (dim : Nat) (hdim : 1 ≤ dim) (m : Int)
    (hm : -2 ^ 31 < m ∧ m < 2 ^ 31) (p : Point dim ℝ) (c : Nat) (t : ℝ) :
    ∃ (f : ℝ → ℝ) (v : ℝ),
      (∀ s, input_exact_solution realFns p s c false 1 m = Except.ok (f s)) ∧
      input_exact_solution realFns p t c true 1 m = Except.ok v ∧
      HasDerivAt f v t := by
  refine ⟨fun s => case1_time_factor realFns dim s c false m
      * ∏ i : Fin dim, axis_factor realFns p c m i, _,
    fun s => input_exact_solution_case1 realFns p s c false m,
    input_exact_solution_case1 realFns p t c true m, ?_⟩
  convert (hasDerivAt_case1_time_factor dim hdim m c t).mul_const
    (∏ i : Fin dim, axis_factor realFns p c m i) using 2
  simp only [case1_time_factor, realFns, if_true, int_neg_of_ne_min m hm, Int.cast_neg]

/-- Witness of `case1_time_derivative`: dimension 2, mode count 3. -/
theorem case1_time_derivative_witness :
    ∃ (f : ℝ → ℝ) (v : ℝ),
      (∀ s, input_exact_solution realFns (fun _ => 1 / 4 : Point 2 ℝ) s 2 false 1 3
        = Except.ok (f s)) ∧
      input_exact_solution realFns (fun _ => 1 / 4 : Point 2 ℝ) (1 / 2) 2 true 1 3
        = Except.ok v ∧
      HasDerivAt f v (1 / 2) :=
  case1_time_derivative 2 (by decide) 3 (by decide) (fun _ => 1 / 4) 2 (1 / 2)

/-- C1, counterexample.  For the mode count `-2^31`, in dimension 1 at the point
`0`, component 0 and time 0, the value mode is `s ↦ -sin(m·π·s)`, whose derivative
at 0 is `2^31·π`, and the time-derivative mode returns `-2^31·π`: the `int`
negation `-membrane_modes` gives `-2^31` again. -/
theorem case1_time_derivative_fails_at_int_min :
    ∃ (f : ℝ → ℝ) (v : ℝ),
      (∀ s, input_exact_solution realFns (fun _ => 0 : Point 1 ℝ) s 0 false 1 (-2 ^ 31)
        = Except.ok (f s)) ∧
      input_exact_solution realFns (fun _ => 0 : Point 1 ℝ) 0 0 true 1 (-2 ^ 31)
        = Except.ok v ∧
      v = -2 ^ 31 * Real.pi ∧
      HasDerivAt f (2 ^ 31 * Real.pi) 0 ∧
      ¬ HasDerivAt f v 0 := by
  have hneg : int_neg (-2147483648) = -2147483648 := by decide
  have hderiv := hasDerivAt_case1_time_factor 1 le_rfl (-2 ^ 31) 0 0
  have hv : case1_time_factor realFns 1 (0 : ℝ) 0 true (-2 ^ 31)
      * ∏ i : Fin 1, axis_factor realFns (fun _ => 0 : Point 1 ℝ) 0 (-2 ^ 31) i
      = -2 ^ 31 * Real.pi := by
    simp [case1_time_factor, axis_factor, realFns, hneg]
    norm_num
  have hf : HasDerivAt (fun s => case1_time_factor realFns 1 s 0 false (-2 ^ 31)
      * ∏ i : Fin 1, axis_factor realFns (fun _ => 0 : Point 1 ℝ) 0 (-2 ^ 31) i)
      (2 ^ 31 * Real.pi) 0 := by
    convert hderiv.mul_const
      (∏ i : Fin 1, axis_factor realFns (fun _ => 0 : Point 1 ℝ) 0 (-2 ^ 31) i) using 1
    simp [axis_factor, realFns]
    norm_num
  refine ⟨_, _, fun s => input_exact_solution_case1 realFns _ s 0 false _,
    input_exact_solution_case1 realFns _ 0 0 true _, hv, hf, ?_⟩
  intro h
  have := h.unique hf
  rw [hv] at this
  have hpi := Real.pi_pos
  nlinarith

/-! ## Case 1: the first-order wave system -/

/-- C9 (as amended).  In case 1, for every dimension `dim ≥ 1`, every mode count
`m` of type `int` other than the least one (`-2^31 < m < 2^31`), every point `p`
and every time `t`: (i) for each velocity component `c < dim`, the
time-derivative mode of component `c` is minus the partial derivative with
respect to `p[c]` of the pressure value; (ii) the time-derivative mode of the
pressure component is minus the sum over `c < dim` of the partial derivative with
respect to `p[c]` of the value of the velocity component `c`. -/
theorem case1_wave_system (dim : Nat) (hdim : 1 ≤ dim) (m : Int)
    (hm : -2 ^ 31 < m ∧ m < 2 ^ 31) (p : Point dim ℝ) (t : ℝ) :
    (∀ c : Fin dim, ∃ (f : ℝ → ℝ) (v : ℝ),
      (∀ x, input_exact_solution realFns (Function.update p c x) t dim false 1 m
        = Except.ok (f x)) ∧
      input_exact_solution realFns p t c true 1 m = Except.ok v ∧
      HasDerivAt f (-v) (p c)) ∧
    (∃ (g : Fin dim → ℝ → ℝ) (dg : Fin dim → ℝ) (w : ℝ),
      (∀ (c : Fin dim) (x : ℝ),
        input_exact_solution realFns (Function.update p c x) t c false 1 m
          = Except.ok (g c x)) ∧
      (∀ c : Fin dim, HasDerivAt (g c) (dg c) (p c)) ∧
      input_exact_solution realFns p t dim true 1 m = Except.ok w ∧
      w = -∑ c : Fin dim, dg c) := by
  have hneg := int_neg_of_ne_min m hm
  constructor
  · intro c
    refine ⟨_, _, fun x => input_exact_solution_case1 realFns _ t dim false m,
      input_exact_solution_case1 realFns p t c true m, ?_⟩
    convert hasDerivAt_case1_pressure dim m p t c using 1
    rw [prod_velocity_split]
    simp only [case1_time_factor, realFns, if_true, c.isLt.ne, if_false, hneg, Int.cast_neg]
    ring
  · refine ⟨_, _, _, fun c x => input_exact_solution_case1 realFns _ t c false m,
      fun c => hasDerivAt_case1_velocity dim m p t c,
      input_exact_solution_case1 realFns p t dim true m, ?_⟩
    have hs := sqrt_dim_ne_zero dim hdim
    have hsq : Real.sqrt (dim : ℝ) * Real.sqrt (dim : ℝ) = dim :=
      Real.mul_self_sqrt (Nat.cast_nonneg dim)
    have hterm : ∀ c : Fin dim,
        -Real.sin ((m : ℝ) * Real.sqrt dim * Real.pi * t) / Real.sqrt dim
          * (-((m : ℝ) * Real.pi * Real.sin ((m : ℝ) * Real.pi * p c))
            * ∏ i in Finset.univ.erase c, axis_factor realFns p dim m i)
        = Real.sin ((m : ℝ) * Real.sqrt dim * Real.pi * t) / Real.sqrt dim * ((m : ℝ) * Real.pi)
          * ∏ i : Fin dim, axis_factor realFns p dim m i := by
      intro c
      rw [prod_pressure_split dim m p c]
      ring
    simp only [hterm, Finset.sum_const, Finset.card_univ, Fintype.card_fin, nsmul_eq_mul]
    simp only [case1_time_factor, realFns, if_true, hneg, Int.cast_neg]
    generalize Real.sqrt (dim : ℝ) = S at hs hsq ⊢
    rw [← hsq]
    field_simp
    ring

/-- Witness of `case1_wave_system`: dimension 2, mode count 3. -/
theorem case1_wave_system_witness :
    (∀ c : Fin 2, ∃ (f : ℝ → ℝ) (v : ℝ),
      (∀ x, input_exact_solution realFns
          (Function.update (fun _ => 1 / 4 : Point 2 ℝ) c x) (1 / 2) 2 false 1 3
        = Except.ok (f x)) ∧
      input_exact_solution realFns (fun _ => 1 / 4 : Point 2 ℝ) (1 / 2) c true 1 3
        = Except.ok v ∧
      HasDerivAt f (-v) ((fun _ => 1 / 4 : Point 2 ℝ) c)) ∧
    (∃ (g : Fin 2 → ℝ → ℝ) (dg : Fin 2 → ℝ) (w : ℝ),
      (∀ (c : Fin 2) (x : ℝ),
        input_exact_solution realFns
            (Function.update (fun _ => 1 / 4 : Point 2 ℝ) c x) (1 / 2) c false 1 3
          = Except.ok (g c x)) ∧
      (∀ c : Fin 2, HasDerivAt (g c) (dg c) ((fun _ => 1 / 4 : Point 2 ℝ) c)) ∧
      input_exact_solution realFns (fun _ => 1 / 4 : Point 2 ℝ) (1 / 2) 2 true 1 3
        = Except.ok w ∧
      w = -∑ c : Fin 2, dg c) :=
  case1_wave_system 2 (by decide) 3 (by decide) (fun _ => 1 / 4) (1 / 2)

/-- C9, counterexample.  For the mode count `-2^31`, in dimension 1 at the point
`0` and time 0, the pressure value as a function of the coordinate is
`x ↦ sin(m·π·x)`, whose derivative at 0 is `-2^31·π`; the time-derivative mode of
the velocity component 0 returns `-2^31·π` as well, not its negative. -/
theorem case1_wave_system_fails_at_int_min :
    ∃ (f : ℝ → ℝ) (v : ℝ),
      (∀ x, input_exact_solution realFns
          (Function.update (fun _ => 0 : Point 1 ℝ) 0 x) 0 1 false 1 (-2 ^ 31)
        = Except.ok (f x)) ∧
      input_exact_solution realFns (fun _ => 0 : Point 1 ℝ) 0 0 true 1 (-2 ^ 31)
        = Except.ok v ∧
      v = -2 ^ 31 * Real.pi ∧
      HasDerivAt f (-2 ^ 31 * Real.pi) 0 ∧
      ¬ HasDerivAt f (-v) ((fun _ => 0 : Point 1 ℝ) 0) := by
  have hneg : int_neg (-2147483648) = -2147483648 := by decide
  have hv : case1_time_factor realFns 1 (0 : ℝ) 0 true (-2 ^ 31)
      * ∏ i : Fin 1, axis_factor realFns (fun _ => 0 : Point 1 ℝ) 0 (-2 ^ 31) i
      = -2 ^ 31 * Real.pi := by
    simp [case1_time_factor, axis_factor, realFns, hneg]
    norm_num
  have hf : HasDerivAt (fun x => case1_time_factor realFns 1 (0 : ℝ) 1 false (-2 ^ 31)
      * ∏ i : Fin 1, axis_factor realFns
          (Function.update (fun _ => 0 : Point 1 ℝ) 0 x) 1 (-2 ^ 31) i)
      (-2 ^ 31 * Real.pi) 0 := by
    convert hasDerivAt_case1_pressure 1 (-2 ^ 31) (fun _ => 0) 0 0 using 1
    simp [axis_factor, realFns]
    norm_num
  refine ⟨_, _, fun x => input_exact_solution_case1 realFns _ 0 1 false _,
    input_exact_solution_case1 realFns _ 0 0 true _, hv, hf, ?_⟩
  intro h
  have := h.unique hf
  rw [hv] at this
  have hpi := Real.pi_pos
  nlinarith

/-! ## Case 1: the pressure at time zero -/

/-- C3 (as amended).  In case 1, for every dimension, every mode count and every
point, the pressure component (`component == dim`) of the value mode at `t = 0`
is the product over all axes `d < dim` of `sin(mode_count · π · p[d])`. -/
theorem case1_pressure_at_zero (dim : Nat) (m : Int) (p : Point dim ℝ) :
    input_exact_solution realFns p 0 dim false 1 m
      = Except.ok (∏ d : Fin dim, Real.sin ((m : ℝ) * Real.pi * p d)) := by
  rw [input_exact_solution_case1]
  have hprod : ∀ d : Fin dim, axis_factor realFns p dim m d
      = Real.sin ((m : ℝ) * Real.pi * p d) := by
    intro d
    simp [axis_factor, realFns, d.isLt.ne]
  rw [Finset.prod_congr rfl (fun d _ => hprod d)]
  simp [case1_time_factor, realFns]

/-- C3, counterexample.  In dimension 1, for the mode count 1 and the point `0`,
the pressure component at `t = 0` is `0`, and the product of the cosines
`cos(1 · π · 0)` is `1`. -/
theorem case1_pressure_at_zero_is_not_cos_product :
    input_exact_solution realFns (fun _ => 0 : Point 1 ℝ) 0 1 false 1 1 = Except.ok 0 ∧
    (∏ d : Fin 1, Real.cos (((1 : Int) : ℝ) * Real.pi * (fun _ => 0 : Point 1 ℝ) d)) = 1 ∧
    input_exact_solution realFns (fun _ => 0 : Point 1 ℝ) 0 1 false 1 1
      ≠ Except.ok (∏ d : Fin 1,
          Real.cos (((1 : Int) : ℝ) * Real.pi * (fun _ => 0 : Point 1 ℝ) d)) := by
  have hval : input_exact_solution realFns (fun _ => 0 : Point 1 ℝ) 0 1 false 1 1
      = Except.ok 0 := by
    rw [case1_pressure_at_zero]
    simp
  refine ⟨hval, by simp, ?_⟩
  rw [hval]
  simp

/-! ## `grid_transform` -/

/-- C8.  For every dimension `dim ≥ 1`, every warp factor `w` stored with
`set_grid_transform_factor` and every point `p`, `grid_transform` returns a
point whose coordinate 0 is `p[0] + w · Π_{d < dim} sin(π · p[d])` and whose other
coordinates are those of `p`; for `w = 0` it returns `p`. -/
theorem grid_transform_spec {α : Type} [LinearOrderedField α] (F : MathFns α)
    (g : Globals α) (dim : Nat) (hdim : 1 ≤ dim) (w : α) (p : Point dim α) :
    ∃ q : Point dim α,
      grid_transform F (set_grid_transform_factor g w) p = Except.ok q ∧
      q ⟨0, hdim⟩ = p ⟨0, hdim⟩ + w * ∏ d : Fin dim, F.sin (F.pi * p d) ∧
      (∀ i : Fin dim, (i : Nat) ≠ 0 → q i = p i) ∧
      (w = 0 → q = p) := by
  refine ⟨_, grid_transform_of_pos F _ hdim p, ?_, ?_, ?_⟩
  · simp [get_grid_transform_factor, set_grid_transform_factor]
  · intro i hi
    have : i ≠ ⟨0, hdim⟩ := fun h => hi (by rw [h])
    simp [Function.update_noteq this]
  · intro hw
    simp [get_grid_transform_factor, set_grid_transform_factor, hw]

/-- Witness of `grid_transform_spec`: dimension 2, warp factor 0, over the reals. -/
theorem grid_transform_spec_witness :
    ∃ q : Point 2 ℝ,
      grid_transform realFns (set_grid_transform_factor ⟨1⟩ 0) (fun _ => 1 / 2) = Except.ok q ∧
      q ⟨0, by decide⟩ = (fun _ => 1 / 2 : Point 2 ℝ) ⟨0, by decide⟩
        + 0 * ∏ d : Fin 2, realFns.sin (realFns.pi * (fun _ => 1 / 2 : Point 2 ℝ) d) ∧
      (∀ i : Fin 2, (i : Nat) ≠ 0 → q i = (fun _ => 1 / 2 : Point 2 ℝ) i) ∧
      ((0 : ℝ) = 0 → q = fun _ => 1 / 2) :=
  grid_transform_spec realFns ⟨1⟩ 2 (by decide) 0 (fun _ => 1 / 2)

/-! ## Case 2: the pulse -/

/-- C2 (the code at the failing input).  In case 2 the flag `time_derivative` is
never read: both requests return the same result, for every dimension, point,
time, component and mode count.  At the centre of the pulse, for the scalar
component, the time-derivative request returns `sqrt(500³/(8π³))`, which is
positive. -/
theorem case2_time_derivative_request_returns_pulse :
    (∀ (dim : Nat) (p : Point dim ℝ) (t : ℝ) (c : Nat) (m : Int),
      input_exact_solution realFns p t c true 2 m
        = input_exact_solution realFns p t c false 2 m) ∧
    ∃ v : ℝ, input_exact_solution realFns (pulse_center ℝ) 0 3 true 2 1 = Except.ok v ∧
      v = Real.sqrt (500 ^ 3 / (8 * Real.pi ^ 3)) ∧ 0 < v := by
  refine ⟨fun dim p t c m => by simp [input_exact_solution, input_exact_solution_body], _,
    input_exact_solution_case2_scalar realFns le_rfl _ _ _ _, ?_, ?_⟩
  · simp only [pulse_center, realFns, sub_self, mul_zero, add_zero, Real.exp_zero, mul_one]
    congr 1
    ring
  · simp only [pulse_center, realFns, sub_self, mul_zero, add_zero, Real.exp_zero, mul_one]
    have := Real.pi_pos
    apply Real.sqrt_pos.mpr
    positivity

/-- C7.  In case 2, dimension 3, value mode, at any time and for any mode count:
the scalar component is defined at every point; of two points, the one that is
not farther from `(0.6, 0.6, 0.6)` has the value that is not smaller; and no
value exceeds the value at `(0.6, 0.6, 0.6)`. -/
theorem case2_pulse_decreasing (t : ℝ) (m : Int) (p q : Point 3 ℝ) :
    ∃ vp vq vc : ℝ,
      input_exact_solution realFns p t 3 false 2 m = Except.ok vp ∧
      input_exact_solution realFns q t 3 false 2 m = Except.ok vq ∧
      input_exact_solution realFns (pulse_center ℝ) t 3 false 2 m = Except.ok vc ∧
      (Point.distance realFns p (pulse_center ℝ) ≤ Point.distance realFns q (pulse_center ℝ)
        → vq ≤ vp) ∧
      vp ≤ vc := by
  refine ⟨_, _, _, input_exact_solution_case2_scalar realFns le_rfl p t false m,
    input_exact_solution_case2_scalar realFns le_rfl q t false m,
    input_exact_solution_case2_scalar realFns le_rfl (pulse_center ℝ) t false m, ?_, ?_⟩
  · intro h
    simp only [Point.distance, Point.norm, realFns, Fin.sum_univ_three, pulse_center] at h
    have h' := (Real.sqrt_le_sqrt_iff
      (add_nonneg (add_nonneg (mul_self_nonneg _) (mul_self_nonneg _)) (mul_self_nonneg _))).mp h
    simp only [realFns]
    apply mul_le_mul_of_nonneg_left _ (Real.sqrt_nonneg _)
    apply Real.exp_le_exp.mpr
    have e0 : (⟨0, by omega⟩ : Fin 3) = 0 := rfl
    have e1 : (⟨1, by omega⟩ : Fin 3) = 1 := rfl
    have e2 : (⟨2, by omega⟩ : Fin 3) = 2 := rfl
    rw [e0, e1, e2]
    norm_num at h' ⊢
    linarith
  · simp only [realFns, pulse_center, sub_self, mul_zero, add_zero]
    apply mul_le_mul_of_nonneg_left _ (Real.sqrt_nonneg _)
    apply Real.exp_le_exp.mpr
    have : 0 ≤ (p ⟨0, by omega⟩ - 0.6) * (p ⟨0, by omega⟩ - 0.6)
        + (p ⟨1, by omega⟩ - 0.6) * (p ⟨1, by omega⟩ - 0.6)
        + (p ⟨2, by omega⟩ - 0.6) * (p ⟨2, by omega⟩ - 0.6) :=
      add_nonneg (add_nonneg (mul_self_nonneg _) (mul_self_nonneg _)) (mul_self_nonneg _)
    norm_num at this ⊢
    linarith

/-- Witness of `case2_pulse_decreasing`: the centre of the pulse is not farther
from the centre than the origin is, and its value is not smaller. -/
theorem case2_pulse_decreasing_witness :
    Point.distance realFns (pulse_center ℝ) (pulse_center ℝ)
      ≤ Point.distance realFns (fun _ => 0 : Point 3 ℝ) (pulse_center ℝ) ∧
    ∃ vp vq : ℝ,
      input_exact_solution realFns (pulse_center ℝ) 0 3 false 2 1 = Except.ok vp ∧
      input_exact_solution realFns (fun _ => 0 : Point 3 ℝ) 0 3 false 2 1 = Except.ok vq ∧
      vq ≤ vp := by
  have hdist : Point.distance realFns (pulse_center ℝ) (pulse_center ℝ)
      ≤ Point.distance realFns (fun _ => 0 : Point 3 ℝ) (pulse_center ℝ) := by
    simp only [Point.distance, Point.norm, realFns, sub_self, mul_zero, Finset.sum_const_zero,
      Real.sqrt_zero]
    exact Real.sqrt_nonneg _
  obtain ⟨vp, vq, -, hp, hq, -, hmono, -⟩ :=
    case2_pulse_decreasing 0 1 (pulse_center ℝ) (fun _ => 0)
  exact ⟨hdist, vp, vq, hp, hq, hmono hdist⟩

/-- C10.  In case 2, for every dimension, point, time, flag and mode count: the
scalar component (`component == dim`) is computed without a failing coordinate
read exactly when `dim ≥ 3`, and otherwise a coordinate read fails the index
check; every other component returns `0` in every dimension, and does so for
every coordinate lookup whatever, also one whose reads all fail: no coordinate
is read. -/
theorem case2_coordinate_reads {α : Type} [LinearOrderedField α] (F : MathFns α) (dim : Nat)
    (p : Point dim α) (t : α) (td : Bool) (m : Int) :
    ((∃ v, input_exact_solution F p t dim td 2 m = Except.ok v) ↔ 3 ≤ dim) ∧
    ((∃ i r, input_exact_solution F p t dim td 2 m = Except.error (Exc.ExcIndexRange i r))
      ↔ dim < 3) ∧
    (∀ c, c ≠ dim →
      input_exact_solution F p t c td 2 m = Except.ok 0 ∧
      ∀ lookup : Nat → Except Exc α,
        input_exact_solution_body F dim lookup t c td 2 m = Except.ok 0) := by
  refine ⟨?_, ?_, fun c hc => ⟨input_exact_solution_case2_velocity F p t c hc td m,
    fun lookup => input_exact_solution_body_case2_velocity F dim lookup t c hc td m⟩⟩
  · constructor
    · rintro ⟨v, hv⟩
      by_contra hlt
      rw [input_exact_solution_case2_scalar_low F (by omega) p t td m] at hv
      cases hv
    · intro h
      exact ⟨_, input_exact_solution_case2_scalar F h p t td m⟩
  · constructor
    · rintro ⟨i, r, hv⟩
      by_contra hge
      rw [input_exact_solution_case2_scalar F (by omega) p t td m] at hv
      cases hv
    · intro h
      exact ⟨_, _, input_exact_solution_case2_scalar_low F h p t td m⟩

/-- Witness of `case2_coordinate_reads`: in dimension 2 over the reals, the scalar
component has no value, and the component 1 is `0` also when every coordinate
read fails. -/
theorem case2_coordinate_reads_witness :
    (¬ ∃ v, input_exact_solution realFns (fun _ => 0 : Point 2 ℝ) 0 2 false 2 1 = Except.ok v) ∧
    input_exact_solution realFns (fun _ => 0 : Point 2 ℝ) 0 1 false 2 1 = Except.ok 0 ∧
    input_exact_solution_body realFns 2 (fun i => Except.error (Exc.ExcIndexRange i 0))
      0 1 false 2 1 = Except.ok 0 :=
  ⟨fun h => absurd ((case2_coordinate_reads realFns 2 (fun _ => 0) 0 false 1).1.mp h)
      (by decide),
    ((case2_coordinate_reads realFns 2 (fun _ => 0) 0 false 1).2.2 1 (by decide)).1,
    ((case2_coordinate_reads realFns 2 (fun _ => 0) 0 false 1).2.2 1 (by decide)).2 _⟩

/-! ## The case identifier -/

/-- C4.  For a case identifier other than 1 and 2, `input_exact_solution` and
`input_geometry_description` both fail with `ExcNotImplemented`; for the case
identifiers 1 and 2 neither of them fails with `ExcNotImplemented`. -/
theorem unsupported_case {α : Type} [LinearOrderedField α] (F : MathFns α) {dim : Nat}
    (lib : GridLibrary dim α) (g : Globals α) (tria : Triangulation dim α)
    (parameters : Parameters α) (p : Point dim α) (t : α) (component : Nat)
    (time_derivative : Bool) (initial_cases : Int) (membrane_modes : Int) :
    (initial_cases ≠ 1 ∧ initial_cases ≠ 2 →
      input_exact_solution F p t component time_derivative initial_cases membrane_modes
        = Except.error Exc.ExcNotImplemented) ∧
    (initial_cases = 1 ∨ initial_cases = 2 →
      input_exact_solution F p t component time_derivative initial_cases membrane_modes
        ≠ Except.error Exc.ExcNotImplemented) ∧
    (parameters.initial_cases ≠ 1 ∧ parameters.initial_cases ≠ 2 →
      input_geometry_description F lib g tria parameters
        = Except.error Exc.ExcNotImplemented) ∧
    (parameters.initial_cases = 1 ∨ parameters.initial_cases = 2 →
      input_geometry_description F lib g tria parameters
        ≠ Except.error Exc.ExcNotImplemented) := by
  refine ⟨fun h => input_exact_solution_default F p t component time_derivative
      initial_cases h.1 h.2 membrane_modes, ?_,
    fun h => input_geometry_description_default F lib g tria parameters h.1 h.2, ?_⟩
  · rintro (h | h)
    · subst h
      rw [input_exact_solution_case1]
      simp
    · subst h
      by_cases hc : component = dim
      · subst hc
        by_cases hd : 3 ≤ component
        · rw [input_exact_solution_case2_scalar F hd]
          simp
        · rw [input_exact_solution_case2_scalar_low F (by omega)]
          simp
      · rw [input_exact_solution_case2_velocity F p t component hc]
        simp
  · rintro (h | h)
    · exact input_geometry_description_case1_error F lib g tria parameters h
    · rw [input_geometry_description_case2 F lib g tria parameters h]
      simp

/-- Witness of `unsupported_case`: the case identifier 3 fails in both functions,
the case identifier 2 in neither. -/
theorem unsupported_case_witness :
    input_exact_solution realFns (fun _ => 0 : Point 3 ℝ) 0 3 false 3 1
      = Except.error Exc.ExcNotImplemented ∧
    input_geometry_description realFns (one_cell_library ℝ) ⟨0⟩ (one_cell_mesh ℝ) ⟨3, 1, 0, 0, 1⟩
      = Except.error Exc.ExcNotImplemented ∧
    input_exact_solution realFns (fun _ => 0 : Point 3 ℝ) 0 3 false 2 1
      ≠ Except.error Exc.ExcNotImplemented ∧
    input_geometry_description realFns (one_cell_library ℝ) ⟨0⟩ (one_cell_mesh ℝ) ⟨2, 1, 0, 0, 1⟩
      ≠ Except.error Exc.ExcNotImplemented :=
  ⟨(unsupported_case realFns (one_cell_library ℝ) ⟨0⟩ (one_cell_mesh ℝ) ⟨3, 1, 0, 0, 1⟩
      (fun _ => 0) 0 3 false 3 1).1 ⟨by decide, by decide⟩,
    (unsupported_case realFns (one_cell_library ℝ) ⟨0⟩ (one_cell_mesh ℝ) ⟨3, 1, 0, 0, 1⟩
      (fun _ => 0) 0 3 false 3 1).2.2.1 ⟨by decide, by decide⟩,
    (unsupported_case realFns (one_cell_library ℝ) ⟨0⟩ (one_cell_mesh ℝ) ⟨2, 1, 0, 0, 1⟩
      (fun _ => 0) 0 3 false 2 1).2.1 (Or.inr rfl),
    (unsupported_case realFns (one_cell_library ℝ) ⟨0⟩ (one_cell_mesh ℝ) ⟨2, 1, 0, 0, 1⟩
      (fun _ => 0) 0 3 false 2 1).2.2.2 (Or.inr rfl)⟩

/-! ## Case 2: the tags of the mesh -/

/-- C5 (as amended).  In case 2, whatever `parameters.boundary_id` is, the mesh
handed to the refinement is the merged mesh with tags attached, and every face
at the boundary of every cell has the boundary id 1, which in the numbering of
lines 56-58 is the soft wall (normal velocity component zero). -/
theorem case2_boundary_faces {α : Type} [LinearOrderedField α] (F : MathFns α) {dim : Nat}
    (lib : GridLibrary dim α) (g : Globals α) (tria : Triangulation dim α)
    (parameters : Parameters α) (h2 : parameters.initial_cases = 2) :
    input_geometry_description F lib g tria parameters
      = Except.ok (finish_mesh lib parameters (case2_mesh F lib), g) ∧
    SameMesh (case2_merged F lib) (case2_mesh F lib) ∧
    ∀ cell, cell < (case2_mesh F lib).n_cells → ∀ f, f < faces_per_cell dim →
      (case2_mesh F lib).at_boundary ((case2_mesh F lib).cell_face cell f) = true →
      (case2_mesh F lib).boundary_id ((case2_mesh F lib).cell_face cell f) = 1 ∧
      boundary_class ((case2_mesh F lib).boundary_id ((case2_mesh F lib).cell_face cell f))
        = some BoundaryClass.SoftWall := by
  refine ⟨input_geometry_description_case2 F lib g tria parameters h2,
    (case2_mesh_spec F lib).1, ?_⟩
  intro cell hcell f hf hb
  have h1 := (case2_mesh_spec F lib).2.1 cell hcell f hf hb
  exact ⟨h1, by rw [h1]; rfl⟩

/-- Witness of `case2_boundary_faces`: the one-cell library over the reals, with
`parameters.boundary_id = 3`. -/
theorem case2_boundary_faces_witness :
    input_geometry_description realFns (one_cell_library ℝ) ⟨0⟩ (one_cell_mesh ℝ) ⟨2, 1, 0, 0, 3⟩
      = Except.ok (finish_mesh (one_cell_library ℝ) ⟨2, 1, 0, 0, 3⟩
          (case2_mesh realFns (one_cell_library ℝ)), ⟨0⟩) ∧
    SameMesh (case2_merged realFns (one_cell_library ℝ))
      (case2_mesh realFns (one_cell_library ℝ)) ∧
    ∀ cell, cell < (case2_mesh realFns (one_cell_library ℝ)).n_cells →
      ∀ f, f < faces_per_cell 3 →
      (case2_mesh realFns (one_cell_library ℝ)).at_boundary
        ((case2_mesh realFns (one_cell_library ℝ)).cell_face cell f) = true →
      (case2_mesh realFns (one_cell_library ℝ)).boundary_id
        ((case2_mesh realFns (one_cell_library ℝ)).cell_face cell f) = 1 ∧
      boundary_class ((case2_mesh realFns (one_cell_library ℝ)).boundary_id
        ((case2_mesh realFns (one_cell_library ℝ)).cell_face cell f))
        = some BoundaryClass.SoftWall :=
  case2_boundary_faces realFns (one_cell_library ℝ) ⟨0⟩ (one_cell_mesh ℝ) ⟨2, 1, 0, 0, 3⟩ rfl

/-- C5, counterexample.  With the one-cell library, no refinement and
`parameters.boundary_id = 2`, case 2 returns a mesh in which face 0 of cell 0 is
at the boundary and has the boundary id 1; its class in the numbering of lines
56-58 is the soft wall, not the hard wall. -/
theorem case2_boundary_face_is_not_hard_wall :
    ∃ (T : Triangulation 3 ℝ) (g : Globals ℝ),
      input_geometry_description realFns (one_cell_library ℝ) ⟨0⟩ (one_cell_mesh ℝ)
        ⟨2, 1, 0, 0, 2⟩ = Except.ok (T, g) ∧
      T.at_boundary (T.cell_face 0 0) = true ∧
      T.boundary_id (T.cell_face 0 0) = 1 ∧
      boundary_class (T.boundary_id (T.cell_face 0 0)) = some BoundaryClass.SoftWall ∧
      boundary_class (T.boundary_id (T.cell_face 0 0)) ≠ some BoundaryClass.HardWall := by
  obtain ⟨hsame, hbid, -⟩ := case2_mesh_spec realFns (one_cell_library ℝ)
  have hat : (case2_mesh realFns (one_cell_library ℝ)).at_boundary
      ((case2_mesh realFns (one_cell_library ℝ)).cell_face 0 0) = true := by
    rw [hsame.at_boundary]
    rfl
  have hn : (0 : Nat) < (case2_mesh realFns (one_cell_library ℝ)).n_cells := by
    rw [hsame.n_cells]
    exact Nat.one_pos
  have h1 := hbid 0 hn 0 (by decide) hat
  refine ⟨_, _, input_geometry_description_case2 realFns _ _ _ _ rfl, hat, h1, ?_, ?_⟩
  · exact congrArg boundary_class h1
  · intro hc
    have hsoft : boundary_class 1 = some BoundaryClass.HardWall :=
      (congrArg boundary_class h1).symm.trans hc
    exact absurd hsoft (by decide)

/-- C6.  In case 2 the mesh handed to the refinement is the merged mesh with tags
attached, and every one of its cells has the material id 0 if the distance of its
centre from the origin is at most 0.4, and the material id 1 otherwise. -/
theorem case2_material_ids {α : Type} [LinearOrderedField α] (F : MathFns α) {dim : Nat}
    (lib : GridLibrary dim α) (g : Globals α) (tria : Triangulation dim α)
    (parameters : Parameters α) (h2 : parameters.initial_cases = 2) :
    input_geometry_description F lib g tria parameters
      = Except.ok (finish_mesh lib parameters (case2_mesh F lib), g) ∧
    SameMesh (case2_merged F lib) (case2_mesh F lib) ∧
    ∀ cell, cell < (case2_mesh F lib).n_cells →
      (case2_mesh F lib).material_id cell
        = if Point.distance F ((case2_mesh F lib).center cell) (Point.origin dim α) ≤ 0.4
          then 0 else 1 := by
  refine ⟨input_geometry_description_case2 F lib g tria parameters h2,
    (case2_mesh_spec F lib).1, ?_⟩
  intro cell hcell
  rw [(case2_mesh_spec F lib).2.2 cell hcell]
  have hd : Point.distance F ((case2_mesh F lib).center cell) (Point.origin dim α)
      = ((case2_mesh F lib).center cell).norm F := by
    simp [Point.distance, Point.origin]
  rw [hd]
  by_cases h : ((case2_mesh F lib).center cell).norm F > 0.4
  · simp [h, not_le.mpr h]
  · simp [h, not_lt.mp h]

/-- Witness of `case2_material_ids`: the one-cell library over the reals. -/
theorem case2_material_ids_witness :
    input_geometry_description realFns (one_cell_library ℝ) ⟨0⟩ (one_cell_mesh ℝ) ⟨2, 1, 0, 0, 3⟩
      = Except.ok (finish_mesh (one_cell_library ℝ) ⟨2, 1, 0, 0, 3⟩
          (case2_mesh realFns (one_cell_library ℝ)), ⟨0⟩) ∧
    SameMesh (case2_merged realFns (one_cell_library ℝ))
      (case2_mesh realFns (one_cell_library ℝ)) ∧
    ∀ cell, cell < (case2_mesh realFns (one_cell_library ℝ)).n_cells →
      (case2_mesh realFns (one_cell_library ℝ)).material_id cell
        = if Point.distance realFns ((case2_mesh realFns (one_cell_library ℝ)).center cell)
            (Point.origin 3 ℝ) ≤ 0.4
          then 0 else 1 :=
  case2_material_ids realFns (one_cell_library ℝ) ⟨0⟩ (one_cell_mesh ℝ) ⟨2, 1, 0, 0, 3⟩ rfl

end HDG_WE
